import Mathlib

/-!
Verification of the resource-polling pipeline in
`src/gotour/idiomaticgo/share_memory_by_communicating.go`.

The Go program polls a fixed list of URLs with a pool of `numPollers`
worker goroutines.  Each `Resource` carries a URL and a consecutive-error
counter `errCount`; `Resource.Poll` performs an HTTP HEAD request,
resetting the counter on success and incrementing it on failure;
`Resource.Sleep` waits `pollInterval + errTimeout*time.Duration(r.errCount)`
before resubmitting; `StateMonitor` is the single owner of the
`urlStatus` map, multiplexing over a ticker (snapshot) and an update
channel (write one entry); `ShareMemory` wires everything together over
unbuffered channels.

The embedding below translates these pieces into pure Lean definitions:
the outcome of the HTTP probe is an explicit `ProbeOutcome` argument (the
transport itself is external I/O), durations are `Int` nanoseconds with
Go int64 wrap-around made explicit where it can occur, the `urlStatus`
map is a function `String → Option String`, and the concurrent pipeline
is a small transition system whose rendezvous hand-offs move a `Resource`
directly from one owner to the next, mirroring the zero-buffer channels.
-/

namespace FluentGo

/-- Constants from the `const` block, as `time.Duration` nanosecond values.
`numPollers` is the number of Poller goroutines launched by `ShareMemory`. -/
def numPollers : Nat := 2

def second : Int := 1000000000

def pollInterval : Int := 60 * second

def statusInterval : Int := 10 * second

def errTimeout : Int := 10 * second

def urls : List String :=
  ["http://www.google.com/", "http://golang.org/", "http://blog.golang.org/"]

/-- `State` represents the last-known state of a URL (`State{url, status}`). -/
structure State where
  url : String
  status : String
deriving DecidableEq

/-- `Resource` represents an HTTP URL to be polled: `url` plus the
consecutive-error counter `errCount` (a Go `int`). -/
structure Resource where
  url : String
  errCount : Int
deriving DecidableEq

/-- Outcome of the external HTTP HEAD probe performed by `http.Head`:
either a response with its status line, or an error with its message
(`err.Error()`).  The Go API returns `(resp, err)`; exactly one of the
two is meaningful, which this sum type captures. -/
inductive ProbeOutcome where
  | ok (status : String)
  | fail (msg : String)
deriving DecidableEq

/-- Reduction of a mathematical integer to Go two's-complement `int64`
(the representation underlying both `int` and `time.Duration`). -/
def wrap64 (x : Int) : Int := (x + 2 ^ 63) % 2 ^ 64 - 2 ^ 63

/-- `Resource.Poll`: on probe error, `r.errCount++` and the error text is
returned; otherwise `r.errCount = 0` and `resp.Status` is returned.  The
mutated resource is returned alongside the status string.  The increment
is Go `int` arithmetic, so it wraps in two's-complement `int64`. -/
def Resource.Poll (r : Resource) (o : ProbeOutcome) : Resource × String :=
  match o with
  | .fail msg => ({ r with errCount := wrap64 (r.errCount + 1) }, msg)
  | .ok status => ({ r with errCount := 0 }, status)

/-- The duration slept by `Resource.Sleep`:
`pollInterval + errTimeout*time.Duration(r.errCount)`, with the `int64`
multiplication and addition wrapping as in Go. -/
def sleepDuration (errCount : Int) : Int :=
  wrap64 (pollInterval + wrap64 (errTimeout * errCount))

/-- The `urlStatus` map owned by `StateMonitor` (`map[string]string`). -/
def StatusTable := String → Option String

/-- The map starts empty: `make(map[string]string)`. -/
def emptyTable : StatusTable := fun _ => none

/-- One update step of the monitor loop: `urlStatus[s.url] = s.status`. -/
def applyEvent (t : StatusTable) (s : State) : StatusTable :=
  fun k => if k = s.url then some s.status else t k

/-- A sequence of updates received on the `updates` channel, applied in
arrival order. -/
def applyEvents (es : List State) (t : StatusTable) : StatusTable :=
  es.foldl applyEvent t

/-- `logState` prints the state map; its observable content is the map
itself, which it does not modify. -/
def logState (s : StatusTable) : StatusTable := s

/-- The two events the `select` inside `StateMonitor` can service:
a tick from `ticker.C` or a `State` from the `updates` channel. -/
inductive MonitorInput where
  | tick
  | update (s : State)

/-- One iteration of the `StateMonitor` loop: the new table together with
the snapshot emitted by `logState`, if any. -/
def monitorStep (i : MonitorInput) (t : StatusTable) : StatusTable × Option StatusTable :=
  match i with
  | .tick => (t, some (logState t))
  | .update s => (applyEvent t s, none)

/-- The status most recently written for endpoint `u` by the event list
`es` (later events are further down the list), if any. -/
def lastStatus : List State → String → Option String
  | [], _ => none
  | s :: rest, u =>
    match lastStatus rest u with
    | some v => some v
    | none => if s.url = u then some s.status else none

/-- A freshly created resource, as seeded by `ShareMemory`:
`&Resource{url: url}` leaves `errCount` at its zero value. -/
def newResource (u : String) : Resource := { url := u, errCount := 0 }

/-- The `Poller` loop, run over the finite prefix of inputs it receives:
for each resource taken from `in` (paired with the outcome of its probe),
it emits `State{r.url, s}` on `status` and the mutated resource on `out`. -/
def pollerRun : List (Resource × ProbeOutcome) → List (State × Resource)
  | [] => []
  | (r, o) :: rest => ((State.mk r.url (r.Poll o).2), (r.Poll o).1) :: pollerRun rest

/-- The resources reachable over a resource lifetime: created by the
seeding loop of `ShareMemory`, then repeatedly passed through
`Resource.Poll` by whichever Poller owns it. -/
inductive ReachableResource : Resource → Prop where
  | init (u : String) : ReachableResource (newResource u)
  | step (r : Resource) (o : ProbeOutcome) :
      ReachableResource r → ReachableResource (r.Poll o).1

/-- The resource obtained from `r` after `n` consecutive failed probes
(each with error text `msg`). -/
def pollFails (r : Resource) (msg : String) : Nat → Resource
  | 0 => r
  | n + 1 => ((pollFails r msg n).Poll (.fail msg)).1

/- ### Claim theorems -/

/-- `wrap64` is the identity on values already representable in `int64`. -/
theorem wrap64_eq_self (x : Int) (h1 : -(2 ^ 63) ≤ x) (h2 : x < 2 ^ 63) :
    wrap64 x = x := by
  simp only [wrap64]
  omega

/-- C1 (amended): `Resource.Poll` has exactly one of two outcomes.  If
the probe succeeds the counter is set to 0 and the status line is
returned; if it fails the counter becomes the `int64` wrap of
`errCount + 1` and the error text is returned — an increment by exactly
1 whenever `-2^63 ≤ errCount` and `errCount + 1 < 2^63` (no `int64`
overflow). -/
theorem poll_two_outcomes :
    (∀ (r : Resource) (o : ProbeOutcome),
        (∃ status, o = .ok status ∧
            r.Poll o = ({ r with errCount := 0 }, status)) ∨
        (∃ msg, o = .fail msg ∧
            r.Poll o = ({ r with errCount := wrap64 (r.errCount + 1) }, msg))) ∧
    (∀ (r : Resource) (msg : String),
        -(2 ^ 63) ≤ r.errCount → r.errCount + 1 < 2 ^ 63 →
        (r.Poll (.fail msg)).1.errCount = r.errCount + 1) := by
  constructor
  · intro r o
    cases o with
    | ok status => exact Or.inl ⟨status, rfl, rfl⟩
    | fail msg => exact Or.inr ⟨msg, rfl, rfl⟩
  · intro r msg h1 h2
    show wrap64 (r.errCount + 1) = r.errCount + 1
    exact wrap64_eq_self _ (by omega) h2

theorem poll_two_outcomes_witness :
    ((Resource.mk "http://www.google.com/" 0).Poll (.fail "connection refused")).1.errCount
        = (Resource.mk "http://www.google.com/" 0).errCount + 1 :=
  poll_two_outcomes.2 _ "connection refused" (by decide) (by decide)

/-- C1 counterexample: the claim as stated (failure increments the
counter by exactly 1, for every Resource) fails at
`errCount = 2^63 - 1`, where Go `int` arithmetic wraps the counter to
`-2^63`. -/
theorem poll_two_outcomes_counterexample :
    ((Resource.mk "http://www.google.com/" (2 ^ 63 - 1)).Poll (.fail "connection refused")).1.errCount
        = -(2 ^ 63) ∧
    ((Resource.mk "http://www.google.com/" (2 ^ 63 - 1)).Poll (.fail "connection refused")).1.errCount
        ≠ (Resource.mk "http://www.google.com/" (2 ^ 63 - 1)).errCount + 1 := by
  constructor
  · decide
  · decide

/-- C3: the monitor loop has exactly two transitions: on a tick it emits
a snapshot of the current table and leaves the table unchanged; on a
status event it writes `table[event.url] = event.status` and emits no
snapshot. -/
theorem monitor_two_transitions :
    (∀ i : MonitorInput, i = .tick ∨ ∃ s, i = .update s) ∧
    (∀ t : StatusTable, monitorStep .tick t = (t, some (logState t)) ∧ logState t = t) ∧
    (∀ (t : StatusTable) (s : State),
        monitorStep (.update s) t = (applyEvent t s, none) ∧
        (monitorStep (.update s) t).1 s.url = some s.status) := by
  refine ⟨fun i => ?_, fun t => ⟨rfl, rfl⟩, fun t s => ⟨rfl, ?_⟩⟩
  · cases i with
    | tick => exact Or.inl rfl
    | update s => exact Or.inr ⟨s, rfl⟩
  · simp [monitorStep, applyEvent]

/-- C5: a timer tick reads the table without modifying it, so two
consecutive ticks with no intervening events produce identical
snapshots. -/
theorem ticks_identical_snapshots (t : StatusTable) :
    (monitorStep .tick t).1 = t ∧
    (monitorStep .tick (monitorStep .tick t).1).2 = (monitorStep .tick t).2 :=
  ⟨rfl, rfl⟩

/-- C7: a probe failure never escapes the Poller: `Poll` totally returns
a plain string (the error converted to its description), and the Poller
loop handles every input and proceeds to the next iteration regardless
of the outcome, never terminating early on failure. -/
theorem poller_never_fails :
    (∀ (r : Resource) (o : ProbeOutcome), ∃ r2 s, r.Poll o = (r2, s)) ∧
    (∀ (r : Resource) (msg : String), (r.Poll (.fail msg)).2 = msg) ∧
    (∀ (r : Resource) (o : ProbeOutcome) (rest : List (Resource × ProbeOutcome)),
        pollerRun ((r, o) :: rest) =
          ((State.mk r.url (r.Poll o).2), (r.Poll o).1) :: pollerRun rest) ∧
    (∀ inputs : List (Resource × ProbeOutcome),
        (pollerRun inputs).length = inputs.length) := by
  refine ⟨fun r o => ⟨(r.Poll o).1, (r.Poll o).2, rfl⟩, fun r msg => rfl,
    fun r o rest => rfl, fun inputs => ?_⟩
  induction inputs with
  | nil => rfl
  | cons p rest ih => simp [pollerRun, ih]

/-- C2 (amended): for `0 ≤ k` with `pollInterval + errTimeout * k` below
`2^63` (no `int64` overflow), the duration slept before resubmission is
exactly `pollInterval + errTimeout * k`; for `k = 0` (immediately
preceding probe succeeded) it is exactly `pollInterval`. -/
theorem sleep_backoff_linear (k : Int) (hk : 0 ≤ k)
    (hov : pollInterval + errTimeout * k < 2 ^ 63) :
    sleepDuration k = pollInterval + errTimeout * k ∧
    sleepDuration 0 = pollInterval := by
  have hself : sleepDuration k = pollInterval + errTimeout * k := by
    have hm : wrap64 (errTimeout * k) = errTimeout * k := by
      refine wrap64_eq_self _ ?_ ?_
      · have : 0 ≤ errTimeout * k := by
          simp only [errTimeout, second]; positivity
        omega
      · simp only [pollInterval, errTimeout, second] at hov ⊢
        omega
    rw [sleepDuration, hm]
    refine wrap64_eq_self _ ?_ hov
    have : 0 ≤ errTimeout * k := by
      simp only [errTimeout, second]; positivity
    simp only [pollInterval, second]
    omega
  refine ⟨hself, ?_⟩
  have h0 : wrap64 (errTimeout * 0) = errTimeout * 0 := by
    refine wrap64_eq_self _ (by simp) (by simp)
  rw [sleepDuration, h0]
  rw [mul_zero, add_zero]
  exact wrap64_eq_self _ (by decide) (by decide)

theorem sleep_backoff_linear_witness :
    sleepDuration 5 = pollInterval + errTimeout * 5 ∧
    sleepDuration 0 = pollInterval :=
  sleep_backoff_linear 5 (by decide) (by decide)

/-- C2 counterexample: the claim as stated (delay equals
`pollInterval + errTimeout * k` for every non-negative `k`) fails at
`k = 10^9`, where the `int64` product has overflowed. -/
theorem sleep_backoff_linear_counterexample :
    0 ≤ (10 ^ 9 : Int) ∧
    sleepDuration (10 ^ 9) ≠ pollInterval + errTimeout * 10 ^ 9 := by
  constructor
  · decide
  · decide

/-- C10: the backoff delay is computed in wrapping signed 64-bit
nanosecond arithmetic: at `errCount = 10^9` (where
`errTimeout * errCount` exceeds `2^63 - 1`) the computed delay has
wrapped modulo `2^64`, is negative, and is smaller than the delay at the
smaller count `10^8`, so the delay is not monotone in `errCount`. -/
theorem sleep_backoff_overflow :
    sleepDuration (10 ^ 9) < 0 ∧
    sleepDuration (10 ^ 9) = pollInterval + errTimeout * 10 ^ 9 - 2 ^ 64 ∧
    (10 ^ 8 : Int) < 10 ^ 9 ∧
    sleepDuration (10 ^ 9) < sleepDuration (10 ^ 8) := by
  refine ⟨by decide, by decide, by decide, by decide⟩

theorem applyEvents_cons (s : State) (es : List State) (t : StatusTable) :
    applyEvents (s :: es) t = applyEvents es (applyEvent t s) := rfl

theorem applyEvents_eq_lastStatus (es : List State) (t : StatusTable) (u : String) :
    applyEvents es t u = (lastStatus es u).elim (t u) some := by
  induction es generalizing t with
  | nil => rfl
  | cons s rest ih =>
    rw [applyEvents_cons, ih]
    cases hrest : lastStatus rest u with
    | some v => simp [lastStatus, hrest]
    | none =>
      simp only [lastStatus, hrest]
      by_cases h : u = s.url
      · subst h
        simp [applyEvent]
      · have h2 : s.url ≠ u := fun hh => h hh.symm
        simp [applyEvent, h, h2]

theorem applyEvent_comm (a b : State) (t : StatusTable) (h : a.url ≠ b.url) :
    applyEvent (applyEvent t a) b = applyEvent (applyEvent t b) a := by
  funext k
  by_cases ha : k = a.url
  · by_cases hb : k = b.url
    · exact absurd (ha.symm.trans hb) h
    · simp [applyEvent, ha, hb, h]
  · by_cases hb : k = b.url
    · simp [applyEvent, ha, hb, Ne.symm h]
    · simp [applyEvent, ha, hb]

/-- C4: applying a finite sequence of status events to any table maps
each endpoint written by the sequence to the status of its last event
(and leaves endpoints never written unchanged); updates for two distinct
endpoints commute. -/
theorem monitor_last_write_wins :
    (∀ (es : List State) (t : StatusTable) (u : String),
        applyEvents es t u = (lastStatus es u).elim (t u) some) ∧
    (∀ (a b : State) (t : StatusTable), a.url ≠ b.url →
        applyEvent (applyEvent t a) b = applyEvent (applyEvent t b) a) :=
  ⟨applyEvents_eq_lastStatus, applyEvent_comm⟩

theorem monitor_last_write_wins_witness :
    applyEvents [State.mk "u" "s1", State.mk "u" "s2"] emptyTable "u"
        = (lastStatus [State.mk "u" "s1", State.mk "u" "s2"] "u").elim
            (emptyTable "u") some ∧
    applyEvent (applyEvent emptyTable (State.mk "a" "1")) (State.mk "b" "2")
        = applyEvent (applyEvent emptyTable (State.mk "b" "2")) (State.mk "a" "1") :=
  ⟨monitor_last_write_wins.1 _ _ _,
   monitor_last_write_wins.2 _ _ _ (by decide)⟩

/-- C9: processing one status event touches only that event's endpoint:
every other key keeps exactly its previous value, and a key can become
populated only if it already was or it is the event's endpoint. -/
theorem update_frame (t : StatusTable) (e : State) (k : String) :
    (k ≠ e.url → applyEvent t e k = t k) ∧
    ((applyEvent t e k).isSome = true → (t k).isSome = true ∨ k = e.url) := by
  constructor
  · intro h
    simp [applyEvent, h]
  · intro h
    by_cases hk : k = e.url
    · exact Or.inr hk
    · simp [applyEvent, hk] at h
      exact Or.inl h

theorem update_frame_witness :
    applyEvent emptyTable (State.mk "a" "1") "b" = emptyTable "b" :=
  (update_frame emptyTable (State.mk "a" "1") "b").1 (by decide)

/-- `wrap64` always lands in the `int64` range. -/
theorem wrap64_mem_range (x : Int) :
    -(2 ^ 63) ≤ wrap64 x ∧ wrap64 x < 2 ^ 63 := by
  simp only [wrap64]
  omega

theorem pollFails_eq (u msg : String) (n : Nat) (h : (n : Int) < 2 ^ 63) :
    pollFails (newResource u) msg n = Resource.mk u (n : Int) := by
  induction n with
  | zero => simp [pollFails, newResource]
  | succ n ih =>
    have hn : ((n : Nat) : Int) < 2 ^ 63 := by push_cast at h ⊢; omega
    have hrec : pollFails (newResource u) msg (n + 1)
        = ((pollFails (newResource u) msg n).Poll (.fail msg)).1 := rfl
    rw [hrec, ih hn]
    show Resource.mk u (wrap64 ((n : Int) + 1)) = Resource.mk u ((n + 1 : Nat) : Int)
    have hw : wrap64 ((n : Int) + 1) = (n : Int) + 1 :=
      wrap64_eq_self _ (by omega) (by push_cast at h ⊢; omega)
    rw [hw]
    push_cast
    rfl

theorem reachable_pollFails (r : Resource) (msg : String) (n : Nat)
    (h : ReachableResource r) : ReachableResource (pollFails r msg n) := by
  induction n with
  | zero => exact h
  | succ n ih => exact ReachableResource.step _ _ ih

/-- C6 (amended): a resource is created with `errCount = 0`; every
`Poll` either resets the counter to 0 or applies the wrapping `int64`
increment of 1; hence the counter always stays in `int64` range, and
after `n < 2^63` consecutive failures of a fresh resource it equals
exactly `n` (in particular `0 ≤ errCount` while fewer than `2^63`
consecutive failures have occurred — after `2^63` of them the counter
wraps to `-2^63`). -/
theorem errCount_nonneg_invariant :
    (∀ u : String, (newResource u).errCount = 0) ∧
    (∀ (r : Resource) (o : ProbeOutcome),
        (r.Poll o).1.errCount = 0 ∨
        (r.Poll o).1.errCount = wrap64 (r.errCount + 1)) ∧
    (∀ r : Resource, ReachableResource r →
        -(2 ^ 63) ≤ r.errCount ∧ r.errCount < 2 ^ 63) ∧
    (∀ (u msg : String) (n : Nat), (n : Int) < 2 ^ 63 →
        (pollFails (newResource u) msg n).errCount = (n : Int)) := by
  refine ⟨fun u => rfl, fun r o => ?_, fun r h => ?_, fun u msg n hn => ?_⟩
  · cases o with
    | ok status => exact Or.inl rfl
    | fail msg => exact Or.inr rfl
  · induction h with
    | init u => constructor <;> simp [newResource]
    | step r o hr ih =>
      cases o with
      | ok status => constructor <;> simp [Resource.Poll]
      | fail msg =>
        show -(2 ^ 63) ≤ wrap64 (r.errCount + 1) ∧ wrap64 (r.errCount + 1) < 2 ^ 63
        exact wrap64_mem_range _
  · rw [pollFails_eq u msg n hn]

theorem errCount_nonneg_invariant_witness :
    (newResource "http://www.google.com/").errCount = 0 ∧
    (-(2 ^ 63) ≤ (newResource "http://www.google.com/").errCount ∧
        (newResource "http://www.google.com/").errCount < 2 ^ 63) ∧
    (pollFails (newResource "http://www.google.com/") "connection refused" 3).errCount
        = ((3 : Nat) : Int) :=
  ⟨errCount_nonneg_invariant.1 _,
   errCount_nonneg_invariant.2.2.1 _ (ReachableResource.init _),
   errCount_nonneg_invariant.2.2.2 _ "connection refused" 3 (by decide)⟩

/-- C6 counterexample: the claim's invariant `0 ≤ errCount` fails over
the resource lifetime: after `2^63` consecutive failed probes the Go
`int` counter has wrapped, so a resource with `errCount = -2^63` is
reachable. -/
theorem errCount_nonneg_invariant_counterexample :
    ReachableResource (Resource.mk "http://www.google.com/" (-(2 ^ 63))) ∧
    (Resource.mk "http://www.google.com/" (-(2 ^ 63))).errCount < 0 := by
  constructor
  · have h1 : pollFails (newResource "http://www.google.com/") "connection refused"
        9223372036854775807
        = Resource.mk "http://www.google.com/" ((9223372036854775807 : Nat) : Int) :=
      pollFails_eq _ _ _ (by norm_num)
    have h2 : ReachableResource
        (pollFails (newResource "http://www.google.com/") "connection refused"
          9223372036854775807) :=
      reachable_pollFails _ _ _ (ReachableResource.init _)
    rw [h1] at h2
    have h3 := ReachableResource.step _ (.fail "connection refused") h2
    have h4 : ((Resource.mk "http://www.google.com/" ((9223372036854775807 : Nat) : Int)).Poll
          (.fail "connection refused")).1
        = Resource.mk "http://www.google.com/" (-(2 ^ 63)) := by
      show Resource.mk "http://www.google.com/"
          (wrap64 (((9223372036854775807 : Nat) : Int) + 1))
        = Resource.mk "http://www.google.com/" (-(2 ^ 63))
      norm_num [wrap64]
    rw [h4] at h3
    exact h3
  · decide

/-- Global state of the `ShareMemory` pipeline.  The `pending` and
`complete` channels are unbuffered (`make(chan *Resource)`), so a send
is a rendezvous that moves a resource directly from one owner to the
next; consequently the channels hold nothing and do not appear in the
state.  The three owners are the seeding goroutine (`toSeed`, resources
not yet sent on `pending`), the Poller goroutines (`pollers`, each slot
holding the one resource its loop body currently owns, if any), and the
`Sleep` goroutines spawned by the main loop (`resting`, completed
resources waiting out their backoff before resubmission). -/
structure SysState where
  toSeed : List Resource
  pollers : List (Option Resource)
  resting : List Resource

/-- Initial state of `ShareMemory`: one fresh resource per configured
URL waiting to be seeded, `numPollers` idle Pollers, nothing resting. -/
def initState : SysState :=
  { toSeed := urls.map newResource
    pollers := List.replicate numPollers none
    resting := [] }

/-- The rendezvous transitions of the pipeline.  `seed`: the seeding
goroutine hands the next initial resource to an idle Poller over
`pending`.  `resubmit`: a `Sleep` goroutine whose delay has elapsed
hands its resource to an idle Poller over `pending`.  `complete`: a
Poller polls its resource and hands the result over `complete` to the
main loop, which immediately spawns `Sleep` for it; the Poller slot
becomes idle again. -/
inductive SysStep : SysState → SysState → Prop where
  | seed (s : SysState) (r : Resource) (rest : List Resource) (i : Nat) :
      s.toSeed = r :: rest → s.pollers[i]? = some none →
      SysStep s { toSeed := rest
                  pollers := s.pollers.set i (some r)
                  resting := s.resting }
  | resubmit (s : SysState) (r : Resource) (l1 l2 : List Resource) (i : Nat) :
      s.resting = l1 ++ r :: l2 → s.pollers[i]? = some none →
      SysStep s { toSeed := s.toSeed
                  pollers := s.pollers.set i (some r)
                  resting := l1 ++ l2 }
  | complete (s : SysState) (r : Resource) (i : Nat) (o : ProbeOutcome) :
      s.pollers[i]? = some (some r) →
      SysStep s { toSeed := s.toSeed
                  pollers := s.pollers.set i none
                  resting := (r.Poll o).1 :: s.resting }

/-- States reachable by the pipeline from startup. -/
inductive SysReach : SysState → Prop where
  | init : SysReach initState
  | step (s t : SysState) : SysReach s → SysStep s t → SysReach t

/-- The number of resources currently in flight, i.e. owned by some
Poller. -/
def inFlight (s : SysState) : Nat := s.pollers.countP fun r => r.isSome

theorem sysReach_pollers_length (s : SysState) (h : SysReach s) :
    s.pollers.length = numPollers := by
  induction h with
  | init => simp [initState]
  | step s t hr hs ih =>
    cases hs with
    | seed r rest i h1 h2 => simpa [List.length_set] using ih
    | resubmit r l1 l2 i h1 h2 => simpa [List.length_set] using ih
    | complete r i o h1 => simpa [List.length_set] using ih

/-- C8: because the pending and completed hand-offs are zero-buffer
rendezvous, in every reachable state of the pipeline the number of
resources in flight (owned by some Poller) is at most `numPollers`. -/
theorem in_flight_le_numPollers (s : SysState) (h : SysReach s) :
    inFlight s ≤ numPollers :=
  le_trans (List.countP_le_length _) (le_of_eq (sysReach_pollers_length s h))

theorem in_flight_le_numPollers_witness :
    inFlight initState ≤ numPollers :=
  in_flight_le_numPollers initState SysReach.init

end FluentGo
